import Mathlib

/-!
# Document loader of `src/common/documentLoader.js`

A shallow embedding of the module's three exports

* `getDocumentLoader` (lines 74-119) with its `webHandler`,
* `didRequiresHistoricalTracking` (lines 121-130),
* `getOverrideDidResolver` (lines 132-144),

followed by the properties established about them.

JavaScript `async` functions are embedded as state-passing functions over a
`World`: the state of the external collaborators (resolver cache, network) and
the list of calls made to them so far.  A rejected promise is an `Except.error`.
-/

namespace DocumentLoader

/-! ## JavaScript values -/

mutual
/-- JavaScript values that can be stored in an override map or returned as a
document.  `number` carries the integer-valued numbers, `nan` is `NaN`. -/
inductive JSValue where
  | undefined
  | null
  | bool (b : Bool)
  | number (n : Int)
  | nan
  | string (s : String)
  | function (name : String)
  | object (o : JSProps)
  deriving DecidableEq
/-- The own properties of a JavaScript object, in insertion order. -/
inductive JSProps where
  | nil
  | cons (key : String) (value : JSValue) (rest : JSProps)
  deriving DecidableEq
end

/-- JavaScript `ToBoolean`: the falsy values are `undefined`, `null`, `false`,
`0`, `NaN` and the empty string; every function and object is truthy. -/
def JSValue.truthy : JSValue → Bool
  | .undefined => false
  | .null => false
  | .bool b => b
  | .number n => n != 0
  | .nan => false
  | .string s => s != ""
  | .function _ => true
  | .object _ => true

/-- An object used as a map from strings to values (`overrides` in
`getOverrideDidResolver`): its own data properties `own`, and `inherited`,
what its prototype chain holds for a name (`none` when no prototype has the
property). -/
structure JSObject where
  own : List (String × JSValue)
  inherited : String → Option JSValue

/-- Property read `o[key]`: the own property if there is one, else the
property found along the prototype chain, else `undefined`. -/
def JSObject.get (o : JSObject) (key : String) : JSValue :=
  match o.own.lookup key with
  | some v => v
  | none =>
    match o.inherited key with
    | some v => v
    | none => JSValue.undefined

/-- The keys of an object (`Object.keys`): the names of its own properties. -/
def JSObject.keys (o : JSObject) : List String := o.own.map Prod.fst

/-- The methods of `Object.prototype` other than `constructor`. -/
def objectPrototypeMethods : List String :=
  [ "__defineGetter__", "__defineSetter__", "hasOwnProperty", "__lookupGetter__",
    "__lookupSetter__", "isPrototypeOf", "propertyIsEnumerable", "toString", "valueOf",
    "toLocaleString" ]

/-- An object value whose properties are the functions of the given names. -/
def methodProps : List String → JSProps
  | [] => .nil
  | name :: names => .cons name (.function name) (methodProps names)

/-- What an object whose prototype is `Object.prototype` inherits:
`constructor` is the function `Object`, the methods are functions, and the
accessor `__proto__` yields `Object.prototype` itself. -/
def objectPrototype (key : String) : Option JSValue :=
  if key = "constructor" then some (.function "Object")
  else if key ∈ objectPrototypeMethods then some (.function key)
  else if key = "__proto__" then
    some (.object (.cons "constructor" (.function "Object") (methodProps objectPrototypeMethods)))
  else none

/-- An object written as a literal `{k1: v1, ...}`: the given own properties,
with `Object.prototype` as prototype. -/
def plainObject (own : List (String × JSValue)) : JSObject :=
  { own := own, inherited := objectPrototype }

/-! ## Errors, external calls, worlds -/

/-- Error kinds.  The named kinds are those of the specification (section 7);
`other` stands for any error value raised by an external collaborator. -/
inductive Error where
  | UnsupportedIdentifier
  | UnsupportedDidMethod
  | ResolutionFailed
  | ResponseTooLarge
  | FetchTimeout
  | InvalidDocument
  | other (msg : String)
  deriving DecidableEq, Repr

/-- The second argument of `fetch` (`getConfig`, lines 96-105). -/
structure FetchConfig where
  headers : List (String × String)
  size : Nat
  timeout : Nat
  deriving DecidableEq, Repr

/-- What the handler can observe of a fetched response: its HTTP status and
the bytes of its body. -/
structure Response where
  status : Nat
  body : List Nat
  deriving DecidableEq, Repr

/-- A call to an external collaborator: `fetch(url, cfg)` or
`didResolver.get({did})`. -/
inductive Call where
  | fetch (url : String) (cfg : FetchConfig)
  | didGet (did : String)
  deriving DecidableEq, Repr

/-- The world a promise runs in: the state `ext` of the external collaborators
(the cache of `didResolver`, the network) and the calls made so far. -/
structure World (σ : Type) where
  ext : σ
  calls : List Call

/-- An `async` computation: it ends in a value or an error, in a new world. -/
abbrev Eff (σ α : Type) := World σ → Except Error α × World σ

/-- The external collaborators, left arbitrary: the global `fetch`, the JSON
parser behind `Response.json()`, and `didResolver.get` of the `CachedResolver`
(line 69), which may read and update its own state. -/
structure Env (σ : Type) where
  fetch : String → FetchConfig → σ → Except Error Response × σ
  parseJSON : List Nat → Except Error JSValue
  didGet : String → σ → Except Error JSValue × σ

/-- The call `fetch(url, cfg)`: recorded, then answered by the environment. -/
def callFetch {σ : Type} (env : Env σ) (url : String) (cfg : FetchConfig) :
    Eff σ Response := fun w =>
  ((env.fetch url cfg w.ext).1,
    { ext := (env.fetch url cfg w.ext).2, calls := w.calls ++ [Call.fetch url cfg] })

/-- The call `didResolver.get({did})`: recorded, then answered by the
environment. -/
def callDidGet {σ : Type} (env : Env σ) (did : String) : Eff σ JSValue := fun w =>
  ((env.didGet did w.ext).1,
    { ext := (env.didGet did w.ext).2, calls := w.calls ++ [Call.didGet did] })

/-- The method `json()` of a response: the JSON parse of the body. -/
def Response.json {σ : Type} (env : Env σ) (r : Response) : Except Error JSValue :=
  env.parseJSON r.body

/-! ## Regular expressions of `STATIC_DID_METHOD_PATTERNS` -/

/-- The terms the two patterns are built from: the assertion `^`, a literal
character, and a capturing group around literal characters. -/
inductive RegexTerm where
  | startAnchor
  | char (c : Char)
  | group (cs : List Char)
  deriving DecidableEq, Repr

/-- A pattern is a sequence of terms. -/
abbrev RegExp := List RegexTerm

/-- Match literal characters at the head of the input; the rest of the input
on success. -/
def matchLiteral : List Char → List Char → Option (List Char)
  | [], rest => some rest
  | _ :: _, [] => none
  | c :: cs, x :: rest => if x = c then matchLiteral cs rest else none

/-- Match a sequence of terms at position `pos`, `rest` being the input from
`pos` on.  Without the `m` flag `^` holds at position 0 only. -/
def matchTerms : RegExp → Nat → List Char → Bool
  | [], _, _ => true
  | .startAnchor :: ts, pos, rest => pos == 0 && matchTerms ts pos rest
  | .char _ :: _, _, [] => false
  | .char c :: ts, pos, x :: rest => x == c && matchTerms ts (pos + 1) rest
  | .group cs :: ts, pos, rest =>
    match matchLiteral cs rest with
    | some rest1 => matchTerms ts (pos + cs.length) rest1
    | none => false

/-- The search of `RegExp.prototype.exec`: try every start position from `pos`
upwards; the index of the first match, if any. -/
def execFrom (p : RegExp) : Nat → List Char → Option Nat
  | pos, [] => if matchTerms p pos [] then some pos else none
  | pos, c :: cs => if matchTerms p pos (c :: cs) then some pos else execFrom p (pos + 1) cs

/-- The method `String.prototype.match` for a pattern without the `g` flag:
`none` is `null`, `some i` a match found at index `i`.  The patterns are ASCII,
so matching over characters and over UTF-16 code units agree. -/
def strMatch (s : String) (p : RegExp) : Option Nat := execFrom p 0 s.toList

/-- Lines 122-125: `/^did:(jwk):/` and `/^did:(key):/`. -/
def STATIC_DID_METHOD_PATTERNS : List RegExp :=
  [ [.startAnchor, .char 'd', .char 'i', .char 'd', .char ':', .group ['j', 'w', 'k'], .char ':'],
    [.startAnchor, .char 'd', .char 'i', .char 'd', .char ':', .group ['k', 'e', 'y'], .char ':'] ]

/-- Lines 128-130: `STATIC_DID_METHOD_PATTERNS.every(p => !did.match(p))`,
returned from an `async` function that calls nothing. -/
def didRequiresHistoricalTracking {σ : Type} (did : String) : Eff σ Bool := fun w =>
  (.ok (STATIC_DID_METHOD_PATTERNS.all fun p => (strMatch did p).isNone), w)

/-! ## The override resolver -/

/-- An object with a `resolve` method, as returned by `getOverrideDidResolver`. -/
structure OverrideDidResolver (σ : Type) where
  resolve : String → Eff σ JSValue

/-- Lines 136-144: `resolve(did)` returns `overrides[did]` when that value is
truthy and `didResolver.get({did})` otherwise. -/
def getOverrideDidResolver {σ : Type} (env : Env σ) (overrides : JSObject) :
    OverrideDidResolver σ :=
  { resolve := fun did w =>
      if (overrides.get did).truthy then
        (.ok (overrides.get did), w)
      else
        callDidGet env did w }

/-! ## The web handler -/

/-- Lines 96-105: the configuration passed to every `fetch`. -/
def getConfig : FetchConfig :=
  { headers := [("Cache-Control", "no-cache"), ("Pragma", "no-cache")]
    size := 8192
    timeout := 5000 }

/-- A protocol handler: an object with a `get` method taking the url. -/
structure ProtocolHandler (σ : Type) where
  get : String → Eff σ JSValue

/-- Lines 94-108: `get` awaits `fetch(url, getConfig)` and returns the
`json()` of the response; a failure of either is the failure of `get`. -/
def webHandler {σ : Type} (env : Env σ) : ProtocolHandler σ :=
  { get := fun url w =>
      match callFetch env url getConfig w with
      | (.error e, w1) => (.error e, w1)
      | (.ok response, w1) => (response.json env, w1) }

/-! ## The document loader -/

/-- Modelled from the spec: the class `JsonLdDocumentLoader` of the package
`jsonld-document-loader` is not part of the source; its state is the static
context table (section 3, a mapping from URL to document), the DID resolution
facade, and the handlers registered per protocol. -/
structure JsonLdDocumentLoader (σ : Type) where
  documents : List (String × JSValue)
  didResolver : Option (String → Eff σ JSValue)
  protocolHandlers : List (String × ProtocolHandler σ)

/-- Modelled from the spec: `new JsonLdDocumentLoader()`, with an empty table
and no handler. -/
def JsonLdDocumentLoader.new {σ : Type} : JsonLdDocumentLoader σ :=
  { documents := [], didResolver := none, protocolHandlers := [] }

/-- Modelled from the spec: `addStatic(url, document)` of the missing class;
an entry added twice is overwritten, the last write wins (section 9). -/
def JsonLdDocumentLoader.addStatic {σ : Type} (l : JsonLdDocumentLoader σ)
    (url : String) (document : JSValue) : JsonLdDocumentLoader σ :=
  { l with documents := (url, document) :: l.documents }

/-- Modelled from the spec: `setDidResolver(resolver)` of the missing class
installs the DID resolution facade. -/
def JsonLdDocumentLoader.setDidResolver {σ : Type} (l : JsonLdDocumentLoader σ)
    (resolver : String → Eff σ JSValue) : JsonLdDocumentLoader σ :=
  { l with didResolver := some resolver }

/-- Modelled from the spec: `setProtocolHandler` of the missing class
installs `handler` for `protocol`, replacing an earlier one. -/
def JsonLdDocumentLoader.setProtocolHandler {σ : Type} (l : JsonLdDocumentLoader σ)
    (protocol : String) (handler : ProtocolHandler σ) : JsonLdDocumentLoader σ :=
  { l with protocolHandlers := (protocol, handler) :: l.protocolHandlers }

/-- The classes of identifier of section 3. -/
inductive IdentifierClass where
  | staticContextUrl
  | did
  | web (protocol : String)
  | unrecognized
  deriving DecidableEq, Repr

/-- Modelled from the spec: the classification of section 4.1 of the missing
class, "exact match against the static table's key set; else the `did:` start;
else scheme `http://` or `https://`; else unrecognized". -/
def JsonLdDocumentLoader.classify {σ : Type} (l : JsonLdDocumentLoader σ)
    (identifier : String) : IdentifierClass :=
  if (l.documents.lookup identifier).isSome then .staticContextUrl
  else if "did:".toList.isPrefixOf identifier.toList then .did
  else if "http://".toList.isPrefixOf identifier.toList then .web "http"
  else if "https://".toList.isPrefixOf identifier.toList then .web "https"
  else .unrecognized

/-- Modelled from the spec: the resolution policy of section 4.1 of the
missing class.  A static match returns the stored document; a DID is delegated
to the DID resolution facade; an http(s) URL is delegated to the handler of its
protocol; anything else fails with `UnsupportedIdentifier`. -/
def JsonLdDocumentLoader.resolve {σ : Type} (l : JsonLdDocumentLoader σ)
    (identifier : String) : Eff σ JSValue := fun w =>
  match l.classify identifier with
  | .staticContextUrl =>
    match l.documents.lookup identifier with
    | some document => (.ok document, w)
    | none => (.error .UnsupportedIdentifier, w)
  | .did =>
    match l.didResolver with
    | some resolver => resolver identifier w
    | none => (.error .UnsupportedIdentifier, w)
  | .web protocol =>
    match l.protocolHandlers.lookup protocol with
    | some handler => handler.get identifier w
    | none => (.error .UnsupportedIdentifier, w)
  | .unrecognized => (.error .UnsupportedIdentifier, w)

/-- The constants imported from the context packages (lines 13-45), which are
not part of the source: eight URLs and the eight documents registered for them. -/
structure ContextConstants where
  ED_SIG_2020_CONTEXT_URL : String
  ED_SIG_2020_CONTEXT : JSValue
  X25519_CONTEXT_URL : String
  X25519_CONTEXT : JSValue
  DI_CONTEXT_URL : String
  DI_CONTEXT : JSValue
  DID_CONTEXT_URL : String
  DID_CONTEXT : JSValue
  CRED_CONTEXT_URL : String
  CRED_CONTEXT : JSValue
  SL_V1_CONTEXT_URL : String
  SL_V1_CONTEXT : JSValue
  VDL_BASE_CONTEXT_URL : String
  VDL_BASE_CONTEXT : JSValue
  VDL_AAMVA_CONTEXT_URL : String
  VDL_AAMVA_CONTEXT : JSValue

/-- The eight `addStatic` registrations of lines 78-88, in source order. -/
def ContextConstants.registrations (c : ContextConstants) : List (String × JSValue) :=
  [ (c.ED_SIG_2020_CONTEXT_URL, c.ED_SIG_2020_CONTEXT),
    (c.X25519_CONTEXT_URL, c.X25519_CONTEXT),
    (c.DI_CONTEXT_URL, c.DI_CONTEXT),
    (c.DID_CONTEXT_URL, c.DID_CONTEXT),
    (c.CRED_CONTEXT_URL, c.CRED_CONTEXT),
    (c.SL_V1_CONTEXT_URL, c.SL_V1_CONTEXT),
    (c.VDL_BASE_CONTEXT_URL, c.VDL_BASE_CONTEXT),
    (c.VDL_AAMVA_CONTEXT_URL, c.VDL_AAMVA_CONTEXT) ]

/-- Line 69: the shared `didResolver`; its `get` is the external call. -/
def didResolver {σ : Type} (env : Env σ) : String → Eff σ JSValue :=
  fun did => callDidGet env did

/-- Lines 74-119: eight static contexts, the DID resolver, and the one
`webHandler` installed for both `http` and `https`. -/
def getDocumentLoader {σ : Type} (env : Env σ) (c : ContextConstants) :
    JsonLdDocumentLoader σ :=
  let jsonLdDocLoader : JsonLdDocumentLoader σ := JsonLdDocumentLoader.new
  let jsonLdDocLoader := jsonLdDocLoader.addStatic c.ED_SIG_2020_CONTEXT_URL c.ED_SIG_2020_CONTEXT
  let jsonLdDocLoader := jsonLdDocLoader.addStatic c.X25519_CONTEXT_URL c.X25519_CONTEXT
  let jsonLdDocLoader := jsonLdDocLoader.addStatic c.DI_CONTEXT_URL c.DI_CONTEXT
  let jsonLdDocLoader := jsonLdDocLoader.addStatic c.DID_CONTEXT_URL c.DID_CONTEXT
  let jsonLdDocLoader := jsonLdDocLoader.addStatic c.CRED_CONTEXT_URL c.CRED_CONTEXT
  let jsonLdDocLoader := jsonLdDocLoader.addStatic c.SL_V1_CONTEXT_URL c.SL_V1_CONTEXT
  let jsonLdDocLoader := jsonLdDocLoader.addStatic c.VDL_BASE_CONTEXT_URL c.VDL_BASE_CONTEXT
  let jsonLdDocLoader := jsonLdDocLoader.addStatic c.VDL_AAMVA_CONTEXT_URL c.VDL_AAMVA_CONTEXT
  let jsonLdDocLoader := jsonLdDocLoader.setDidResolver (didResolver env)
  let jsonLdDocLoader := jsonLdDocLoader.setProtocolHandler "http" (webHandler env)
  let jsonLdDocLoader := jsonLdDocLoader.setProtocolHandler "https" (webHandler env)
  jsonLdDocLoader

/-! ## The HTTP client of the specification -/

/-- What the network delivers for a URL: status, body bytes, and the time in
milliseconds the response took to complete. -/
structure RawResponse where
  status : Nat
  body : List Nat
  elapsedMs : Nat
  deriving DecidableEq, Repr

/-- Modelled from the spec: the generic HTTP client behind `fetch` is not part
of the source.  Per sections 4.2 and 6 it limits the response byte count to
`cfg.size` (a longer response fails with `ResponseTooLarge`, it is not
truncated) and enforces `cfg.timeout` (a response not completed in time fails
with `FetchTimeout`); the bounds are checked in the order section 4.2 lists
them. -/
def boundedHttpClient {σ : Type} (net : String → σ → Except Error RawResponse × σ) :
    String → FetchConfig → σ → Except Error Response × σ := fun url cfg s =>
  match net url s with
  | (.error e, s1) => (.error e, s1)
  | (.ok raw, s1) =>
    if cfg.size < raw.body.length then (.error .ResponseTooLarge, s1)
    else if cfg.timeout < raw.elapsedMs then (.error .FetchTimeout, s1)
    else (.ok { status := raw.status, body := raw.body }, s1)

/-- Modelled from the spec: the JSON parsing of section 4.2, "a non-JSON or
malformed body fails with `InvalidDocument`", over a parser `parse` that is
not part of the source. -/
def parseDocument (parse : List Nat → Option JSValue) (body : List Nat) :
    Except Error JSValue :=
  match parse body with
  | some v => .ok v
  | none => .error .InvalidDocument

/-- Modelled from the spec: the environment in which `fetch` is the bounded
HTTP client over a network `net`. -/
def specEnv {σ : Type} (net : String → σ → Except Error RawResponse × σ)
    (parse : List Nat → Option JSValue)
    (didGet : String → σ → Except Error JSValue × σ) : Env σ :=
  { fetch := boundedHttpClient net
    parseJSON := parseDocument parse
    didGet := didGet }

/-! ## Sample collaborators, used to evaluate the definitions -/

/-- A document, `{"id": "did:example:123", "v": "A"}`. -/
def docA : JSValue :=
  .object (.cons "id" (.string "did:example:123") (.cons "v" (.string "A") .nil))

/-- Another document for the same DID, `{"id": "did:example:123", "v": "B"}`. -/
def docB : JSValue :=
  .object (.cons "id" (.string "did:example:123") (.cons "v" (.string "B") .nil))

/-- A sample environment whose external state counts the external calls:
every `fetch` answers with status 404 and the given body, JSON parsing accepts
the one-byte body `[123]` only, and the live resolver answers `docB`. -/
def sampleEnv : Env Nat :=
  { fetch := fun _ _ n => (.ok { status := 404, body := [123] }, n + 1)
    parseJSON := fun body => if body = [123] then .ok docA else .error (.other "SyntaxError")
    didGet := fun _ n => (.ok docB, n + 1) }

/-- A sample network: every URL answers at once with status 200 and a body of
8193 bytes. -/
def sampleNet : String → Nat → Except Error RawResponse × Nat :=
  fun _ n => (.ok { status := 200, body := List.replicate 8193 32, elapsedMs := 0 }, n + 1)

/-- A sample parser that accepts every body. -/
def sampleParse : List Nat → Option JSValue := fun _ => some docA

/-- Sample values for the imported constants, with eight distinct URLs. -/
def sampleContexts : ContextConstants :=
  { ED_SIG_2020_CONTEXT_URL := "https://w3id.org/security/suites/ed25519-2020/v1"
    ED_SIG_2020_CONTEXT := .object (.cons "n" (.number 1) .nil)
    X25519_CONTEXT_URL := "https://w3id.org/security/suites/x25519-2020/v1"
    X25519_CONTEXT := .object (.cons "n" (.number 2) .nil)
    DI_CONTEXT_URL := "https://w3id.org/security/data-integrity/v1"
    DI_CONTEXT := .object (.cons "n" (.number 3) .nil)
    DID_CONTEXT_URL := "https://www.w3.org/ns/did/v1"
    DID_CONTEXT := .object (.cons "n" (.number 4) .nil)
    CRED_CONTEXT_URL := "https://www.w3.org/2018/credentials/v1"
    CRED_CONTEXT := .object (.cons "n" (.number 5) .nil)
    SL_V1_CONTEXT_URL := "https://w3id.org/vc/status-list/v1"
    SL_V1_CONTEXT := .object (.cons "n" (.number 6) .nil)
    VDL_BASE_CONTEXT_URL := "https://w3id.org/vdl/v1"
    VDL_BASE_CONTEXT := .object (.cons "n" (.number 7) .nil)
    VDL_AAMVA_CONTEXT_URL := "https://w3id.org/vdl/aamva/v1"
    VDL_AAMVA_CONTEXT := .object (.cons "n" (.number 8) .nil) }

/-! ## Lemmas on the pattern matcher -/

/-- The literal text of a pattern without assertions. -/
def literalOf : RegExp → List Char
  | [] => []
  | .startAnchor :: ts => literalOf ts
  | .char c :: ts => c :: literalOf ts
  | .group cs :: ts => cs ++ literalOf ts

/-- A pattern free of `^`. -/
def anchorFree : RegExp → Bool
  | [] => true
  | .startAnchor :: _ => false
  | .char _ :: ts => anchorFree ts
  | .group _ :: ts => anchorFree ts

theorem matchLiteral_append (cs rest : List Char) :
    matchLiteral cs (cs ++ rest) = some rest := by
  induction cs with
  | nil => rfl
  | cons c cs ih => simp [matchLiteral, ih]

theorem matchLiteral_some (cs input rest : List Char)
    (h : matchLiteral cs input = some rest) : input = cs ++ rest := by
  induction cs generalizing input with
  | nil => simp [matchLiteral] at h; simp [h]
  | cons c cs ih =>
    cases input with
    | nil => simp [matchLiteral] at h
    | cons x xs =>
      simp only [matchLiteral] at h
      split at h
      · next hx => subst hx; simp [ih xs h]
      · simp at h

theorem matchTerms_anchorFree (ts : RegExp) (h : anchorFree ts = true) (pos : Nat)
    (input : List Char) :
    matchTerms ts pos input = true ↔ literalOf ts <+: input := by
  induction ts generalizing pos input with
  | nil => simp [matchTerms, literalOf]
  | cons t ts ih =>
    cases t with
    | startAnchor => simp [anchorFree] at h
    | char c =>
      simp only [anchorFree] at h
      cases input with
      | nil => simp [matchTerms, literalOf]
      | cons x xs =>
        simp only [matchTerms, literalOf, Bool.and_eq_true, beq_iff_eq, ih h,
          List.cons_prefix_cons]
        constructor
        · rintro ⟨h1, h2⟩; exact ⟨h1.symm, h2⟩
        · rintro ⟨h1, h2⟩; exact ⟨h1.symm, h2⟩
    | group cs =>
      simp only [anchorFree] at h
      simp only [matchTerms, literalOf]
      constructor
      · intro hm
        split at hm
        · next rest1 hl =>
          have := matchLiteral_some cs input rest1 hl
          subst this
          exact (List.prefix_append_right_inj cs).mpr ((ih h _ _).mp hm)
        · simp at hm
      · rintro ⟨t, ht⟩
        subst ht
        rw [List.append_assoc, matchLiteral_append]
        exact (ih h _ _).mpr ⟨t, rfl⟩

theorem execFrom_anchored_pos (ts : RegExp) (pos : Nat) (input : List Char) :
    execFrom (.startAnchor :: ts) (pos + 1) input = none := by
  induction input generalizing pos with
  | nil => simp [execFrom, matchTerms]
  | cons c cs ih => simp [execFrom, matchTerms, ih]

theorem strMatch_anchored (ts : RegExp) (h : anchorFree ts = true) (s : String) :
    (strMatch s (.startAnchor :: ts)).isNone = true ↔ ¬ literalOf ts <+: s.toList := by
  unfold strMatch
  have key : matchTerms (.startAnchor :: ts) 0 s.toList = true ↔ literalOf ts <+: s.toList := by
    simp [matchTerms, matchTerms_anchorFree ts h]
  cases hs : s.toList with
  | nil =>
    rw [hs] at key
    by_cases hm : matchTerms (.startAnchor :: ts) 0 [] = true
    · simp [execFrom, hm, key.mp hm]
    · have : ¬ literalOf ts <+: [] := fun hp => hm (key.mpr hp)
      simp only [execFrom, hm]
      simpa using this
  | cons c cs =>
    rw [hs] at key
    by_cases hm : matchTerms (.startAnchor :: ts) 0 (c :: cs) = true
    · simp [execFrom, hm, key.mp hm]
    · have : ¬ literalOf ts <+: c :: cs := fun hp => hm (key.mpr hp)
      simp only [execFrom, hm, execFrom_anchored_pos]
      simpa using this

/-! ## The historical-tracking classifier -/

/-- C1: `didRequiresHistoricalTracking(did)` yields `false` if and only if
`did` begins with `did:key:` or `did:jwk:`, and `true` for every other string. -/
theorem didRequiresHistoricalTracking_false_iff {σ : Type} (did : String) (w : World σ) :
    ∃ b : Bool, didRequiresHistoricalTracking did w = (.ok b, w) ∧
      (b = false ↔
        ("did:key:".toList <+: did.toList ∨ "did:jwk:".toList <+: did.toList)) ∧
      (b = true ↔
        ¬ ("did:key:".toList <+: did.toList ∨ "did:jwk:".toList <+: did.toList)) := by
  refine ⟨_, rfl, ?_⟩
  have hj := strMatch_anchored
    [.char 'd', .char 'i', .char 'd', .char ':', .group ['j', 'w', 'k'], .char ':'] rfl did
  have hk := strMatch_anchored
    [.char 'd', .char 'i', .char 'd', .char ':', .group ['k', 'e', 'y'], .char ':'] rfl did
  have lj : literalOf
      [.char 'd', .char 'i', .char 'd', .char ':', .group ['j', 'w', 'k'], .char ':']
      = "did:jwk:".toList := rfl
  have lk : literalOf
      [.char 'd', .char 'i', .char 'd', .char ':', .group ['k', 'e', 'y'], .char ':']
      = "did:key:".toList := rfl
  rw [lj] at hj
  rw [lk] at hk
  have hall : (STATIC_DID_METHOD_PATTERNS.all fun p => (strMatch did p).isNone) = true ↔
      ¬ ("did:key:".toList <+: did.toList ∨ "did:jwk:".toList <+: did.toList) := by
    simp only [STATIC_DID_METHOD_PATTERNS, List.all_cons, List.all_nil, Bool.and_true,
      Bool.and_eq_true, hj, hk]
    tauto
  refine ⟨?_, hall⟩
  rw [← not_iff_not, Bool.not_eq_false, hall]

/-- C8: `didRequiresHistoricalTracking` is a pure structural check: run in any
two worlds, whatever the state of the resolver and its cache, it gives the same
result, makes no external call, and leaves each world as it was. -/
theorem didRequiresHistoricalTracking_pure {σ τ : Type} (did : String)
    (w1 : World σ) (w2 : World τ) :
    (didRequiresHistoricalTracking did w1).1 = (didRequiresHistoricalTracking did w2).1 ∧
      (didRequiresHistoricalTracking did w1).2 = w1 ∧
      (didRequiresHistoricalTracking did w2).2 = w2 ∧
      (didRequiresHistoricalTracking did w1).2.calls = w1.calls ∧
      (didRequiresHistoricalTracking did w2).2.calls = w2.calls :=
  ⟨rfl, rfl, rfl, rfl, rfl⟩

/-! ## The override resolver -/

theorem lookup_eq_none_of_not_mem_keys (o : List (String × JSValue)) (key : String)
    (h : key ∉ o.map Prod.fst) : o.lookup key = none := by
  induction o with
  | nil => rfl
  | cons e es ih =>
    obtain ⟨k, v⟩ := e
    simp only [List.map_cons, List.mem_cons, not_or] at h
    have hne : (key == k) = false := by simpa using h.1
    simp only [List.lookup, hne]
    exact ih h.2

/-- No name inherited from `Object.prototype` starts with `did:`. -/
theorem objectPrototype_did_eq_none (key : String) (h : "did:".toList <+: key.toList) :
    objectPrototype key = none := by
  have hc : key ≠ "constructor" := by
    rintro rfl
    exact absurd h (by decide)
  have hm : key ∉ objectPrototypeMethods := by
    intro hmem
    simp only [objectPrototypeMethods, List.mem_cons, List.mem_singleton, List.mem_nil_iff,
      or_false] at hmem
    rcases hmem with rfl | rfl | rfl | rfl | rfl | rfl | rfl | rfl | rfl | rfl <;>
      exact absurd h (by decide)
  have hp : key ≠ "__proto__" := by
    rintro rfl
    exact absurd h (by decide)
  simp [objectPrototype, hc, hm, hp]

/-- C2, as stated, fails: the map `{"did:example:123": null}` contains an
entry for the DID, yet `resolve` calls the live resolver, returns its document
and changes its state instead of returning the entry. -/
theorem override_entry_not_returned :
    List.lookup "did:example:123" (plainObject [("did:example:123", JSValue.null)]).own
        = some JSValue.null ∧
      (getOverrideDidResolver sampleEnv (plainObject [("did:example:123", JSValue.null)])).resolve
          "did:example:123" { ext := 0, calls := [] }
        = (.ok docB, { ext := 1, calls := [Call.didGet "did:example:123"] }) ∧
      ¬ ∀ (env : Env Nat) (overrides : JSObject) (did : String) (v : JSValue) (w : World Nat),
          overrides.own.lookup did = some v →
            (getOverrideDidResolver env overrides).resolve did w = (.ok v, w) := by
  have hl : List.lookup "did:example:123" (plainObject [("did:example:123", JSValue.null)]).own
      = some JSValue.null := by decide
  have hr : (getOverrideDidResolver sampleEnv
        (plainObject [("did:example:123", JSValue.null)])).resolve
        "did:example:123" { ext := 0, calls := [] }
      = (.ok docB, { ext := 1, calls := [Call.didGet "did:example:123"] }) := by
    simp [getOverrideDidResolver, JSObject.get, plainObject, JSValue.truthy, callDidGet,
      sampleEnv]
  refine ⟨hl, hr, fun hall => ?_⟩
  have h := hall sampleEnv (plainObject [("did:example:123", JSValue.null)]) "did:example:123"
    JSValue.null { ext := 0, calls := [] } hl
  rw [hr] at h
  have h1 := congrArg (fun r => r.2.ext) h
  simp at h1

/-- C2, amended: when the entry `overrides[did]` is truthy (as every document
object is), `resolve(did)` returns exactly that entry, whatever the live
resolver would return, without calling `didResolver.get` and without changing
its cache. -/
theorem override_truthy_entry_returned {σ : Type} (env : Env σ) (overrides : JSObject)
    (did : String) (v : JSValue) (w : World σ)
    (hentry : overrides.own.lookup did = some v) (htruthy : v.truthy = true) :
    (getOverrideDidResolver env overrides).resolve did w = (.ok v, w) := by
  simp [getOverrideDidResolver, JSObject.get, hentry, htruthy]

theorem override_truthy_entry_returned_witness :
    List.lookup "did:example:123" (plainObject [("did:example:123", docA)]).own = some docA ∧
      docA.truthy = true ∧
      (sampleEnv.didGet "did:example:123" 0).1 = .ok docB ∧
      (getOverrideDidResolver sampleEnv (plainObject [("did:example:123", docA)])).resolve
          "did:example:123" { ext := 0, calls := [] }
        = (.ok docA, { ext := 0, calls := [] }) :=
  ⟨by decide, rfl, rfl,
    override_truthy_entry_returned sampleEnv (plainObject [("did:example:123", docA)])
      "did:example:123" docA { ext := 0, calls := [] } (by decide) rfl⟩

/-- C3, as stated, fails: `constructor` is not a key of the empty map `{}`,
yet the read `overrides['constructor']` finds the function `Object` on the
prototype, which is truthy, so `resolve` returns it and never calls
`didResolver.get`. -/
theorem override_inherited_name_returned :
    "constructor" ∉ (plainObject []).keys ∧
      (getOverrideDidResolver sampleEnv (plainObject [])).resolve "constructor"
          { ext := 0, calls := [] }
        = (.ok (JSValue.function "Object"), { ext := 0, calls := [] }) ∧
      ¬ ∀ (env : Env Nat) (overrides : JSObject) (did : String) (w : World Nat),
          did ∉ overrides.keys →
            (getOverrideDidResolver env overrides).resolve did w
              = ((env.didGet did w.ext).1,
                  { ext := (env.didGet did w.ext).2, calls := w.calls ++ [Call.didGet did] }) := by
  have hk : "constructor" ∉ (plainObject []).keys := by decide
  have hr : (getOverrideDidResolver sampleEnv (plainObject [])).resolve "constructor"
        { ext := 0, calls := [] }
      = (.ok (JSValue.function "Object"), { ext := 0, calls := [] }) := by
    simp [getOverrideDidResolver, JSObject.get, plainObject, objectPrototype, JSValue.truthy]
  refine ⟨hk, hr, fun hall => ?_⟩
  have h := hall sampleEnv (plainObject []) "constructor" { ext := 0, calls := [] } hk
  rw [hr] at h
  have h1 := congrArg (fun r => r.2.ext) h
  simp [sampleEnv] at h1

/-- C3, amended: for a `did` that is neither a key of the override map nor a
name the map inherits from its prototype chain, `resolve(did)` makes the one
call `didResolver.get({did})` with that same `did` and ends as that call does:
same document or same error, same resolver state. -/
theorem override_no_property_delegates {σ : Type} (env : Env σ) (overrides : JSObject)
    (did : String) (w : World σ) (habsent : did ∉ overrides.keys)
    (hinherited : overrides.inherited did = none) :
    (getOverrideDidResolver env overrides).resolve did w
      = ((env.didGet did w.ext).1,
          { ext := (env.didGet did w.ext).2, calls := w.calls ++ [Call.didGet did] }) := by
  simp [getOverrideDidResolver, JSObject.get,
    lookup_eq_none_of_not_mem_keys overrides.own did habsent, hinherited,
    JSValue.truthy, callDidGet]

theorem override_no_property_delegates_witness :
    "did:web:example.com" ∉ (plainObject [("did:example:123", docA)]).keys ∧
      (plainObject [("did:example:123", docA)]).inherited "did:web:example.com" = none ∧
      (getOverrideDidResolver sampleEnv (plainObject [("did:example:123", docA)])).resolve
          "did:web:example.com" { ext := 0, calls := [] }
        = ((sampleEnv.didGet "did:web:example.com" 0).1,
            { ext := (sampleEnv.didGet "did:web:example.com" 0).2,
              calls := [] ++ [Call.didGet "did:web:example.com"] }) :=
  ⟨by decide, by decide,
    override_no_property_delegates sampleEnv (plainObject [("did:example:123", docA)])
      "did:web:example.com" { ext := 0, calls := [] } (by decide) (by decide)⟩

/-- C9: the override resolver decides by the truthiness of `overrides[did]`,
the read that also finds inherited properties: `resolve(did)` returns
`overrides[did]` when that value is truthy and is the call
`didResolver.get({did})` otherwise, so it returns without calling the live
resolver exactly when the value is truthy; and a map holding `did` as a key
with the value `null`, `undefined`, `''`, `0` or `false` delegates to the live
resolver. -/
theorem override_decides_by_truthiness {σ : Type} (env : Env σ) (overrides : JSObject)
    (did : String) (w : World σ) :
    (getOverrideDidResolver env overrides).resolve did w
        = (if (overrides.get did).truthy then (.ok (overrides.get did), w)
           else ((env.didGet did w.ext).1,
              { ext := (env.didGet did w.ext).2, calls := w.calls ++ [Call.didGet did] })) ∧
      (((getOverrideDidResolver env overrides).resolve did w).2.calls = w.calls ↔
        (overrides.get did).truthy = true) ∧
      did ∈ (plainObject [(did, JSValue.null)]).keys ∧
      (getOverrideDidResolver env (plainObject [(did, JSValue.null)])).resolve did w
        = callDidGet env did w ∧
      (getOverrideDidResolver env (plainObject [(did, JSValue.undefined)])).resolve did w
        = callDidGet env did w ∧
      (getOverrideDidResolver env (plainObject [(did, JSValue.string "")])).resolve did w
        = callDidGet env did w ∧
      (getOverrideDidResolver env (plainObject [(did, JSValue.number 0)])).resolve did w
        = callDidGet env did w ∧
      (getOverrideDidResolver env (plainObject [(did, JSValue.bool false)])).resolve did w
        = callDidGet env did w := by
  refine ⟨?_, ?_, ?_, ?_, ?_, ?_, ?_, ?_⟩
  · simp only [getOverrideDidResolver, callDidGet]
  · simp only [getOverrideDidResolver, callDidGet]
    by_cases ht : (overrides.get did).truthy = true
    · simp [ht]
    · simp [ht]
  · simp [JSObject.keys, plainObject]
  all_goals simp [getOverrideDidResolver, JSObject.get, plainObject, JSValue.truthy]

/-! ## The document loader -/

theorem lookup_of_mem_of_nodup_keys (l : List (String × JSValue)) (key : String)
    (v : JSValue) (hn : (l.map Prod.fst).Nodup) (hm : (key, v) ∈ l) :
    l.lookup key = some v := by
  induction l with
  | nil => simp at hm
  | cons e es ih =>
    obtain ⟨k, x⟩ := e
    simp only [List.map_cons, List.nodup_cons, List.mem_map, not_exists, not_and] at hn
    rcases List.mem_cons.mp hm with h | h
    · cases h
      simp [List.lookup]
    · have hne : key ≠ k := fun hk => hn.1 (key, v) h (by simp [hk])
      have hb : (key == k) = false := by simpa using hne
      simp only [List.lookup, hb]
      exact ih hn.2 h

theorem getDocumentLoader_documents {σ : Type} (env : Env σ) (c : ContextConstants) :
    (getDocumentLoader env c).documents = c.registrations.reverse := rfl

/-- C4: when the eight registered URLs are distinct, resolving any of them
through the loader of `getDocumentLoader` yields exactly the document
registered for it and leaves the world untouched: no `fetch`, no call to the
DID resolver, whatever the scheme of the URL. -/
theorem static_context_resolved_locally {σ : Type} (env : Env σ) (c : ContextConstants)
    (url : String) (document : JSValue) (w : World σ)
    (hdistinct : (c.registrations.map Prod.fst).Nodup)
    (hreg : (url, document) ∈ c.registrations) :
    (getDocumentLoader env c).resolve url w = (.ok document, w) := by
  have hl : (getDocumentLoader env c).documents.lookup url = some document := by
    rw [getDocumentLoader_documents]
    apply lookup_of_mem_of_nodup_keys
    · rw [List.map_reverse]
      exact List.nodup_reverse.mpr hdistinct
    · exact List.mem_reverse.mpr hreg
  simp [JsonLdDocumentLoader.resolve, JsonLdDocumentLoader.classify, hl]

theorem static_context_resolved_locally_witness :
    (sampleContexts.registrations.map Prod.fst).Nodup ∧
      ("https://www.w3.org/2018/credentials/v1", JSValue.object (.cons "n" (.number 5) .nil))
        ∈ sampleContexts.registrations ∧
      (getDocumentLoader sampleEnv sampleContexts).resolve
          "https://www.w3.org/2018/credentials/v1" { ext := 0, calls := [] }
        = (.ok (JSValue.object (.cons "n" (.number 5) .nil)), { ext := 0, calls := [] }) :=
  ⟨by decide, by decide,
    static_context_resolved_locally sampleEnv sampleContexts
      "https://www.w3.org/2018/credentials/v1" (JSValue.object (.cons "n" (.number 5) .nil))
      { ext := 0, calls := [] } (by decide) (by decide)⟩

/-- C5: an identifier that is not a key of the static table and starts with
none of `did:`, `http://`, `https://` fails with `UnsupportedIdentifier`, and
neither the DID resolver nor the web handler is called. -/
theorem unrecognized_identifier_fails {σ : Type} (env : Env σ) (c : ContextConstants)
    (identifier : String) (w : World σ)
    (hstatic : identifier ∉ c.registrations.map Prod.fst)
    (hdid : ¬ "did:".toList <+: identifier.toList)
    (hhttp : ¬ "http://".toList <+: identifier.toList)
    (hhttps : ¬ "https://".toList <+: identifier.toList) :
    (getDocumentLoader env c).resolve identifier w = (.error .UnsupportedIdentifier, w) := by
  have hl : (getDocumentLoader env c).documents.lookup identifier = none := by
    rw [getDocumentLoader_documents]
    apply lookup_eq_none_of_not_mem_keys
    simpa using hstatic
  have h1 : "did:".toList.isPrefixOf identifier.toList = false := by
    rw [Bool.eq_false_iff]; exact fun h => hdid (List.isPrefixOf_iff_prefix.mp h)
  have h2 : "http://".toList.isPrefixOf identifier.toList = false := by
    rw [Bool.eq_false_iff]; exact fun h => hhttp (List.isPrefixOf_iff_prefix.mp h)
  have h3 : "https://".toList.isPrefixOf identifier.toList = false := by
    rw [Bool.eq_false_iff]; exact fun h => hhttps (List.isPrefixOf_iff_prefix.mp h)
  simp only [JsonLdDocumentLoader.resolve, JsonLdDocumentLoader.classify, hl, h1, h2, h3,
    Option.isSome_none, Bool.false_eq_true, if_false]

theorem unrecognized_identifier_fails_witness :
    "ftp://example.com/context.jsonld" ∉ sampleContexts.registrations.map Prod.fst ∧
      ¬ "did:".toList <+: "ftp://example.com/context.jsonld".toList ∧
      ¬ "http://".toList <+: "ftp://example.com/context.jsonld".toList ∧
      ¬ "https://".toList <+: "ftp://example.com/context.jsonld".toList ∧
      (getDocumentLoader sampleEnv sampleContexts).resolve "ftp://example.com/context.jsonld"
          { ext := 0, calls := [] }
        = (.error .UnsupportedIdentifier, { ext := 0, calls := [] }) :=
  ⟨by decide, by decide, by decide, by decide,
    unrecognized_identifier_fails sampleEnv sampleContexts "ftp://example.com/context.jsonld"
      { ext := 0, calls := [] } (by decide) (by decide) (by decide) (by decide)⟩

/-! ## The web handler -/

/-- C6: over the bounded HTTP client of the specification, when the response
body for a URL is longer than 8192 bytes the web handler's `get` fails with
`ResponseTooLarge` (no document is returned) after exactly one `fetch`. -/
theorem webHandler_rejects_oversized {σ : Type}
    (net : String → σ → Except Error RawResponse × σ) (parse : List Nat → Option JSValue)
    (didGet : String → σ → Except Error JSValue × σ) (url : String) (w : World σ)
    (raw : RawResponse) (s1 : σ)
    (hnet : net url w.ext = (.ok raw, s1)) (hlong : 8192 < raw.body.length) :
    (webHandler (specEnv net parse didGet)).get url w
      = (.error .ResponseTooLarge,
          { ext := s1, calls := w.calls ++ [Call.fetch url getConfig] }) := by
  have hsize : getConfig.size < raw.body.length := hlong
  simp [webHandler, callFetch, specEnv, boundedHttpClient, hnet, hsize]

theorem webHandler_rejects_oversized_witness :
    sampleNet "https://example.com/big.json" 0
        = (.ok { status := 200, body := List.replicate 8193 32, elapsedMs := 0 }, 1) ∧
      8192 < (List.replicate 8193 32).length ∧
      (webHandler (specEnv sampleNet sampleParse sampleEnv.didGet)).get
          "https://example.com/big.json" { ext := 0, calls := [] }
        = (.error .ResponseTooLarge,
            { ext := 1, calls := [] ++ [Call.fetch "https://example.com/big.json" getConfig] }) :=
  ⟨rfl, by rw [List.length_replicate]; decide,
    webHandler_rejects_oversized sampleNet sampleParse sampleEnv.didGet
      "https://example.com/big.json" { ext := 0, calls := [] }
      { status := 200, body := List.replicate 8193 32, elapsedMs := 0 } 1 rfl
      (by rw [List.length_replicate]; decide)⟩

/-- C7: for every url the web handler makes exactly one call `fetch(url, cfg)`
with the url unchanged and the fixed configuration (size 8192, timeout 5000,
headers `Cache-Control: no-cache` and `Pragma: no-cache`); and the handler
installed for `http` is the very handler installed for `https`. -/
theorem webHandler_fixed_bounds {σ : Type} (env : Env σ) (c : ContextConstants)
    (url : String) (w : World σ) :
    ((webHandler env).get url w).2.calls
        = w.calls ++ [Call.fetch url
            { headers := [("Cache-Control", "no-cache"), ("Pragma", "no-cache")]
              size := 8192
              timeout := 5000 }] ∧
      (getDocumentLoader env c).protocolHandlers.lookup "http" = some (webHandler env) ∧
      (getDocumentLoader env c).protocolHandlers.lookup "https" = some (webHandler env) := by
  refine ⟨?_, ?_, ?_⟩
  · simp only [webHandler, callFetch, getConfig]
    cases (env.fetch url _ w.ext).1 <;> rfl
  · simp [getDocumentLoader, JsonLdDocumentLoader.setProtocolHandler,
      JsonLdDocumentLoader.setDidResolver, JsonLdDocumentLoader.addStatic,
      JsonLdDocumentLoader.new, List.lookup]
  · simp [getDocumentLoader, JsonLdDocumentLoader.setProtocolHandler,
      JsonLdDocumentLoader.setDidResolver, JsonLdDocumentLoader.addStatic,
      JsonLdDocumentLoader.new, List.lookup]

/-- C10: the web handler's result is the failure of `fetch` when `fetch`
fails and the JSON parse of the response body otherwise; the HTTP status is
never inspected, so a response of any status (404, 500) whose body parses is
returned as the document, and `get` fails only when `fetch` fails or the body
does not parse. -/
theorem webHandler_ignores_status {σ : Type} (env : Env σ) (url : String) (w : World σ) :
    (webHandler env).get url w
        = ((match (env.fetch url getConfig w.ext).1 with
            | .error e => .error e
            | .ok response => env.parseJSON response.body),
           { ext := (env.fetch url getConfig w.ext).2,
             calls := w.calls ++ [Call.fetch url getConfig] }) ∧
      (∀ (status : Nat) (body : List Nat),
        ((webHandler { env with fetch := fun _ _ s => (.ok { status := status, body := body }, s) }).get
            url w).1 = env.parseJSON body) ∧
      (((webHandler env).get url w).1.toOption = none ↔
        ((env.fetch url getConfig w.ext).1.toOption = none ∨
          ∃ response, (env.fetch url getConfig w.ext).1 = .ok response ∧
            (env.parseJSON response.body).toOption = none)) := by
  have hget : (webHandler env).get url w
        = ((match (env.fetch url getConfig w.ext).1 with
            | .error e => .error e
            | .ok response => env.parseJSON response.body),
           { ext := (env.fetch url getConfig w.ext).2,
             calls := w.calls ++ [Call.fetch url getConfig] }) := by
    simp only [webHandler, callFetch, Response.json]
    cases (env.fetch url getConfig w.ext).1 <;> rfl
  refine ⟨hget, ?_, ?_⟩
  · intro status body
    simp [webHandler, callFetch, Response.json]
  · rw [hget]
    cases hf : (env.fetch url getConfig w.ext).1 with
    | error e => simp [Except.toOption]
    | ok response => simp [Except.toOption]

end DocumentLoader
